import Mathlib

/-!
Shallow embedding of the PSP-20 fungible-token ledger (src/lib.rs, module
`psp20`) and proofs of its specification's claims.

Modelling decisions:
* `AccountId` is an opaque identifier; we use `Nat` (only equality is used).
* `Balance` is `u128`; we model it as `Nat` and make wrap-around explicit
  with `% 2 ^ 128` exactly where the Rust code performs unchecked
  arithmetic (the receiver-side addition in `transfer_from_to`).  The
  sender-side subtraction is guarded by the `from_balance < value` check,
  so `Nat` subtraction agrees with `u128` subtraction there.
* `StorageHashMap` is modelled as an association list with unique keys,
  overwrite-on-insert and zero-default lookup (`unwrap_or(&0)`).
* Events emitted via `emit_event` are collected in an `events` log field,
  in emission order.
* Each contract message becomes a pure function `state → (result, state)`.
-/

/-- Opaque account identifier (`AccountId` in ink!); only equality is used. -/
abbrev AccountId := Nat

/-- The modulus of the `u128` `Balance` type. -/
def U128 : Nat := 2 ^ 128

/-- Association-list model of `StorageHashMap<α, Balance>`. -/
abbrev AMap (α : Type) := List (α × Nat)

/-- `map.get(a)`: the value stored at the first matching key, if any. -/
def AMap.get? {α : Type} [DecidableEq α] : AMap α → α → Option Nat
  | [], _ => none
  | (k, v) :: rest, a => if k = a then some v else AMap.get? rest a

/-- `*map.get(a).unwrap_or(&0)`: lookup with zero default. -/
def AMap.getZ {α : Type} [DecidableEq α] (m : AMap α) (a : α) : Nat :=
  (m.get? a).getD 0

/-- `map.insert(a, b)`: overwrite the entry for `a`, or append a new one. -/
def AMap.insert {α : Type} [DecidableEq α] : AMap α → α → Nat → AMap α
  | [], a, b => [(a, b)]
  | (k, v) :: rest, a, b =>
      if k = a then (a, b) :: rest else (k, v) :: AMap.insert rest a b

/-- The sum of all values stored in the table. -/
def AMap.sumValues {α : Type} (m : AMap α) : Nat :=
  (m.map Prod.snd).sum

/-- The two contract events of `psp20`: `Transfer { from, to, value }`
    and `Approval { owner, spender, value }`. -/
inductive Event where
  | Transfer : Option AccountId → Option AccountId → Nat → Event
  | Approval : AccountId → AccountId → Nat → Event
deriving DecidableEq

/-- The `Psp20` storage struct, extended with the log of emitted events. -/
structure Psp20 where
  total_supply : Nat
  balances : AMap AccountId
  allowances : AMap (AccountId × AccountId)
  events : List Event
deriving DecidableEq

/-- Constructor `Psp20::new(initial_supply)` with `caller = env().caller()`:
    allocates the initial supply to the caller and emits
    `Transfer { from: None, to: Some(caller), value: initial_supply }`. -/
def Psp20.new (initial_supply : Nat) (caller : AccountId) : Psp20 :=
  { total_supply := initial_supply
    balances := AMap.insert [] caller initial_supply
    allowances := []
    events := [Event.Transfer none (some caller) initial_supply] }

/-- Private `balance_of_or_zero`. -/
def Psp20.balance_of_or_zero (s : Psp20) (owner : AccountId) : Nat :=
  s.balances.getZ owner

/-- Private `allowance_of_or_zero`. -/
def Psp20.allowance_of_or_zero (s : Psp20) (owner spender : AccountId) : Nat :=
  s.allowances.getZ (owner, spender)

/-- Message `balance_of(owner)`. -/
def Psp20.balance_of (s : Psp20) (owner : AccountId) : Nat :=
  s.balance_of_or_zero owner

/-- Message `allowance(owner, spender)`. -/
def Psp20.allowance (s : Psp20) (owner spender : AccountId) : Nat :=
  s.allowance_of_or_zero owner spender

/-- Private `transfer_from_to(from, to, value)`: checks the sender's
    balance, debits the sender, credits the receiver (the credit is the
    unchecked `u128` addition `to_balance + value`, hence the `% U128`),
    and emits a `Transfer` event.  Returns `false` with no mutation on
    insufficient balance. -/
def Psp20.transfer_from_to (s : Psp20) (src dst : AccountId) (value : Nat) :
    Bool × Psp20 :=
  let from_balance := s.balance_of_or_zero src
  if from_balance < value then (false, s)
  else
    let s1 : Psp20 := { s with balances := s.balances.insert src (from_balance - value) }
    let to_balance := s1.balance_of_or_zero dst
    (true,
      { s1 with
        balances := s1.balances.insert dst ((to_balance + value) % U128)
        events := s1.events ++ [Event.Transfer (some src) (some dst) value] })

/-- Message `transfer(to, value)` with `caller = env().caller()`:
    delegates to `transfer_from_to(caller, to, value)`. -/
def Psp20.transfer (s : Psp20) (caller dst : AccountId) (value : Nat) :
    Bool × Psp20 :=
  s.transfer_from_to caller dst value

/-- Message `approve(spender, value)` with `caller = env().caller()`:
    unconditionally overwrites the allowance, emits `Approval`, returns
    `true`. -/
def Psp20.approve (s : Psp20) (caller spender : AccountId) (value : Nat) :
    Bool × Psp20 :=
  (true,
    { s with
      allowances := s.allowances.insert (caller, spender) value
      events := s.events ++ [Event.Approval caller spender value] })

/-- Message `transfer_from(from, to, value)` with `caller = env().caller()`:
    returns `false` immediately if the caller's allowance from `from` is
    insufficient; otherwise decrements the allowance and then invokes
    `transfer_from_to`. -/
def Psp20.transfer_from (s : Psp20) (caller src dst : AccountId) (value : Nat) :
    Bool × Psp20 :=
  let allowance := s.allowance_of_or_zero src caller
  if allowance < value then (false, s)
  else
    let s1 : Psp20 :=
      { s with allowances := s.allowances.insert (src, caller) (allowance - value) }
    s1.transfer_from_to src dst value

/-- States reachable from construction by any sequence of messages; every
    `u128` argument supplied by a caller is below `U128`. -/
inductive Reachable : Psp20 → Prop
  | init (initial_supply : Nat) (caller : AccountId)
      (h : initial_supply < U128) :
      Reachable (Psp20.new initial_supply caller)
  | step_transfer (s : Psp20) (caller dst : AccountId) (value : Nat)
      (h : Reachable s) (hv : value < U128) :
      Reachable (s.transfer caller dst value).2
  | step_approve (s : Psp20) (caller spender : AccountId) (value : Nat)
      (h : Reachable s) (hv : value < U128) :
      Reachable (s.approve caller spender value).2
  | step_transfer_from (s : Psp20) (caller src dst : AccountId) (value : Nat)
      (h : Reachable s) (hv : value < U128) :
      Reachable (s.transfer_from caller src dst value).2

/-- The ledger invariant: conservation (the stored total supply equals the
    sum of all balance-table entries) together with representability of
    the total supply in `u128`. -/
def Psp20.Inv (s : Psp20) : Prop :=
  s.balances.sumValues = s.total_supply ∧ s.total_supply < U128

/-- `transfer_from_to` as the specification describes it, with both
    balance writes arithmetic-overflow-checked: the credit is the exact
    mathematical sum, and an addition that would exceed the `u128` range
    is a fatal error (`none`) rather than a wrapped write. -/
def Psp20.transfer_from_to_checked (s : Psp20) (src dst : AccountId) (value : Nat) :
    Option (Bool × Psp20) :=
  let from_balance := s.balance_of_or_zero src
  if from_balance < value then some (false, s)
  else
    let s1 : Psp20 := { s with balances := s.balances.insert src (from_balance - value) }
    let to_balance := s1.balance_of_or_zero dst
    if to_balance + value < U128 then
      some (true,
        { s1 with
          balances := s1.balances.insert dst (to_balance + value)
          events := s1.events ++ [Event.Transfer (some src) (some dst) value] })
    else none

/-- A (madeup, unreachable) state exhibiting the unchecked receiver-side
    addition: two accounts each holding the maximal `u128` balance. -/
def wrapState : Psp20 :=
  { total_supply := 0
    balances := [(0, U128 - 1), (1, U128 - 1)]
    allowances := []
    events := [] }

/-! ### Association-list map lemmas -/

theorem AMap.get?_insert_self {α : Type} [DecidableEq α] (m : AMap α) (a : α) (b : Nat) :
    (m.insert a b).get? a = some b := by
  induction m with
  | nil => simp [AMap.insert, AMap.get?]
  | cons kv rest ih =>
      obtain ⟨k, v⟩ := kv
      by_cases h : k = a
      · simp [AMap.insert, AMap.get?, h]
      · simp [AMap.insert, AMap.get?, h, ih]

theorem AMap.get?_insert_ne {α : Type} [DecidableEq α] (m : AMap α) (a c : α) (b : Nat)
    (h : c ≠ a) : (m.insert a b).get? c = m.get? c := by
  induction m with
  | nil => simp [AMap.insert, AMap.get?, Ne.symm h]
  | cons kv rest ih =>
      obtain ⟨k, v⟩ := kv
      by_cases hk : k = a
      · subst hk
        simp [AMap.insert, AMap.get?, Ne.symm h]
      · simp [AMap.insert, AMap.get?, hk, ih]

theorem AMap.getZ_insert_self {α : Type} [DecidableEq α] (m : AMap α) (a : α) (b : Nat) :
    (m.insert a b).getZ a = b := by
  simp [AMap.getZ, AMap.get?_insert_self]

theorem AMap.getZ_insert_ne {α : Type} [DecidableEq α] (m : AMap α) (a c : α) (b : Nat)
    (h : c ≠ a) : (m.insert a b).getZ c = m.getZ c := by
  simp [AMap.getZ, AMap.get?_insert_ne m a c b h]

theorem AMap.sumValues_insert {α : Type} [DecidableEq α] (m : AMap α) (a : α) (b : Nat) :
    (m.insert a b).sumValues + m.getZ a = m.sumValues + b := by
  induction m with
  | nil => simp [AMap.insert, AMap.sumValues, AMap.getZ, AMap.get?]
  | cons kv rest ih =>
      obtain ⟨k, v⟩ := kv
      by_cases h : k = a
      · simp [AMap.insert, AMap.sumValues, AMap.getZ, AMap.get?, h]
        omega
      · simp only [AMap.insert, if_neg h, AMap.sumValues, List.map_cons, List.sum_cons,
          AMap.getZ, AMap.get?, if_neg h]
        have := ih
        simp only [AMap.sumValues, AMap.getZ] at this
        omega

theorem AMap.getZ_le_sumValues {α : Type} [DecidableEq α] (m : AMap α) (a : α) :
    m.getZ a ≤ m.sumValues := by
  induction m with
  | nil => simp [AMap.getZ, AMap.get?, AMap.sumValues]
  | cons kv rest ih =>
      obtain ⟨k, v⟩ := kv
      by_cases h : k = a
      · simp [AMap.getZ, AMap.get?, AMap.sumValues, h]
      · simp only [AMap.getZ, AMap.get?, if_neg h, AMap.sumValues, List.map_cons,
          List.sum_cons]
        have := ih
        simp only [AMap.getZ, AMap.sumValues] at this
        omega

/-! ### Invariant lemmas -/

/-- Failure branch of `transfer_from_to`: insufficient sender balance. -/
theorem transfer_from_to_of_lt (s : Psp20) (src dst : AccountId) (value : Nat)
    (h : s.balance_of_or_zero src < value) :
    s.transfer_from_to src dst value = (false, s) := by
  simp only [Psp20.transfer_from_to]
  rw [if_pos h]

/-- Success branch of `transfer_from_to`, with the wrapping credit made
    explicit. -/
theorem transfer_from_to_of_le (s : Psp20) (src dst : AccountId) (value : Nat)
    (h : value ≤ s.balance_of_or_zero src) :
    s.transfer_from_to src dst value =
      (true,
        { s with
          balances := (s.balances.insert src (s.balance_of_or_zero src - value)).insert dst
            (((s.balances.insert src (s.balance_of_or_zero src - value)).getZ dst + value) % U128)
          events := s.events ++ [Event.Transfer (some src) (some dst) value] }) := by
  simp only [Psp20.transfer_from_to]
  rw [if_neg (Nat.not_lt.mpr h)]
  rfl

/-- Debiting a sender whose balance covers `value` lowers the table sum by
    exactly `value`. -/
theorem debit_sum (s : Psp20) (src : AccountId) (value : Nat)
    (hv : value ≤ s.balance_of_or_zero src) :
    (s.balances.insert src (s.balance_of_or_zero src - value)).sumValues + value
      = s.balances.sumValues := by
  have h1 := AMap.sumValues_insert s.balances src (s.balance_of_or_zero src - value)
  have h2 := AMap.getZ_le_sumValues s.balances src
  simp only [Psp20.balance_of_or_zero] at hv h1 ⊢
  omega

/-- On an invariant state with sufficient sender balance, the credited
    receiver amount fits in `u128`, so the unchecked addition does not
    wrap; `transfer_from_to` succeeds with the exact arithmetic result. -/
theorem transfer_from_to_success (s : Psp20) (src dst : AccountId) (value : Nat)
    (hinv : Psp20.Inv s) (hv : value ≤ s.balance_of_or_zero src) :
    (s.balances.insert src (s.balance_of_or_zero src - value)).getZ dst + value
        ≤ s.total_supply ∧
    s.transfer_from_to src dst value =
      (true,
        { s with
          balances := (s.balances.insert src (s.balance_of_or_zero src - value)).insert dst
            ((s.balances.insert src (s.balance_of_or_zero src - value)).getZ dst + value)
          events := s.events ++ [Event.Transfer (some src) (some dst) value] }) := by
  obtain ⟨hsum, hts⟩ := hinv
  have hd := debit_sum s src value hv
  have htb := AMap.getZ_le_sumValues (s.balances.insert src (s.balance_of_or_zero src - value)) dst
  have hle : (s.balances.insert src (s.balance_of_or_zero src - value)).getZ dst + value
      ≤ s.total_supply := by omega
  refine ⟨hle, ?_⟩
  have hmod : ((s.balances.insert src (s.balance_of_or_zero src - value)).getZ dst + value) % U128
      = (s.balances.insert src (s.balance_of_or_zero src - value)).getZ dst + value :=
    Nat.mod_eq_of_lt (by omega)
  rw [transfer_from_to_of_le s src dst value hv, hmod]

/-- `transfer_from_to` preserves the ledger invariant. -/
theorem transfer_from_to_inv (s : Psp20) (src dst : AccountId) (value : Nat)
    (h : Psp20.Inv s) : Psp20.Inv (s.transfer_from_to src dst value).2 := by
  by_cases hlt : s.balance_of_or_zero src < value
  · rw [transfer_from_to_of_lt s src dst value hlt]
    exact h
  · push_neg at hlt
    obtain ⟨hle, heq⟩ := transfer_from_to_success s src dst value h hlt
    rw [heq]
    dsimp only [Psp20.Inv]
    obtain ⟨hsum, hts⟩ := h
    have hd := debit_sum s src value hlt
    have hins := AMap.sumValues_insert
      (s.balances.insert src (s.balance_of_or_zero src - value)) dst
      ((s.balances.insert src (s.balance_of_or_zero src - value)).getZ dst + value)
    exact ⟨by omega, hts⟩

/-- The total supply field is never written by `transfer_from_to`. -/
theorem transfer_from_to_total_supply (s : Psp20) (src dst : AccountId) (value : Nat) :
    (s.transfer_from_to src dst value).2.total_supply = s.total_supply := by
  by_cases hlt : s.balance_of_or_zero src < value
  · rw [transfer_from_to_of_lt s src dst value hlt]
  · rw [transfer_from_to_of_le s src dst value (Nat.not_lt.mp hlt)]

/-- On an invariant state the unchecked `transfer_from_to` coincides with
    the overflow-checked version the specification describes. -/
theorem transfer_from_to_checked_eq (s : Psp20) (src dst : AccountId) (value : Nat)
    (h : Psp20.Inv s) :
    s.transfer_from_to_checked src dst value = some (s.transfer_from_to src dst value) := by
  by_cases hlt : s.balance_of_or_zero src < value
  · rw [transfer_from_to_of_lt s src dst value hlt]
    simp only [Psp20.transfer_from_to_checked]
    rw [if_pos hlt]
  · push_neg at hlt
    obtain ⟨hle, heq⟩ := transfer_from_to_success s src dst value h hlt
    rw [heq]
    have hts := h.2
    simp only [Psp20.transfer_from_to_checked]
    rw [if_neg (Nat.not_lt.mpr hlt)]
    dsimp only [Psp20.balance_of_or_zero]
    rw [if_pos (show (s.balances.insert src (s.balances.getZ src - value)).getZ dst + value < U128 by
      simp only [Psp20.balance_of_or_zero] at hle
      omega)]

/-- Every reachable state satisfies the ledger invariant. -/
theorem reachable_inv (s : Psp20) (h : Reachable s) : Psp20.Inv s := by
  induction h with
  | init initial_supply caller h =>
      constructor
      · simp [Psp20.new, AMap.insert, AMap.sumValues]
      · simpa [Psp20.new] using h
  | step_transfer s caller dst value h hv ih =>
      exact transfer_from_to_inv s caller dst value ih
  | step_approve s caller spender value h hv ih =>
      simpa [Psp20.approve, Psp20.Inv] using ih
  | step_transfer_from s caller src dst value h hv ih =>
      simp only [Psp20.transfer_from]
      by_cases ha : s.allowance_of_or_zero src caller < value
      · rw [if_pos ha]
        exact ih
      · rw [if_neg ha]
        exact transfer_from_to_inv _ src dst value
          (by simpa [Psp20.Inv, AMap.sumValues] using ih)

/-! ### Claims -/

/-- Claim C1: for every reachable ledger state (construction followed by
    any sequence of transfer, approve and transfer_from operations),
    `total_supply` equals the sum of all entries in the balances table. -/
theorem conservation_reachable (s : Psp20) (h : Reachable s) :
    s.total_supply = s.balances.sumValues :=
  ((reachable_inv s h).1).symm

theorem conservation_reachable_witness :
    Reachable (Psp20.new 100 0) ∧
      (Psp20.new 100 0).total_supply = (Psp20.new 100 0).balances.sumValues :=
  ⟨Reachable.init 100 0 (by norm_num [U128]),
   conservation_reachable (Psp20.new 100 0) (Reachable.init 100 0 (by norm_num [U128]))⟩

/-- Claim C2: when the caller's allowance covers `value` but the owner's
    balance does not, `transfer_from` returns `false` yet still writes
    `allowances[(from, caller)] = allowance - value`; balances, total
    supply and the event log are untouched. -/
theorem transfer_from_consumes_allowance_on_failed_transfer
    (s : Psp20) (caller src dst : AccountId) (value : Nat)
    (ha : value ≤ s.allowance src caller)
    (hb : s.balance_of src < value) :
    (s.transfer_from caller src dst value).1 = false ∧
    (s.transfer_from caller src dst value).2.allowances
      = s.allowances.insert (src, caller) (s.allowance src caller - value) ∧
    (s.transfer_from caller src dst value).2.allowance src caller
      = s.allowance src caller - value ∧
    (s.transfer_from caller src dst value).2.balances = s.balances ∧
    (s.transfer_from caller src dst value).2.total_supply = s.total_supply ∧
    (s.transfer_from caller src dst value).2.events = s.events := by
  have ha2 : ¬ s.allowance_of_or_zero src caller < value := Nat.not_lt.mpr ha
  have hb2 : Psp20.balance_of_or_zero
      { s with allowances :=
                 s.allowances.insert (src, caller)
                   (s.allowance_of_or_zero src caller - value) } src < value := hb
  have hstep : s.transfer_from caller src dst value =
      (false, { s with allowances :=
                         s.allowances.insert (src, caller)
                           (s.allowance src caller - value) }) := by
    simp only [Psp20.transfer_from]
    rw [if_neg ha2]
    exact transfer_from_to_of_lt _ src dst value hb2
  rw [hstep]
  refine ⟨rfl, rfl, ?_, rfl, rfl, rfl⟩
  exact AMap.getZ_insert_self s.allowances (src, caller) (s.allowance src caller - value)

theorem transfer_from_consumes_allowance_on_failed_transfer_witness :
    3 ≤ ((Psp20.new 5 1).approve 0 1 5).2.allowance 0 1 ∧
    ((Psp20.new 5 1).approve 0 1 5).2.balance_of 0 < 3 ∧
    ((((Psp20.new 5 1).approve 0 1 5).2.transfer_from 1 0 2 3).1 = false ∧
     (((Psp20.new 5 1).approve 0 1 5).2.transfer_from 1 0 2 3).2.allowances
       = ((Psp20.new 5 1).approve 0 1 5).2.allowances.insert (0, 1)
           (((Psp20.new 5 1).approve 0 1 5).2.allowance 0 1 - 3) ∧
     (((Psp20.new 5 1).approve 0 1 5).2.transfer_from 1 0 2 3).2.allowance 0 1
       = ((Psp20.new 5 1).approve 0 1 5).2.allowance 0 1 - 3 ∧
     (((Psp20.new 5 1).approve 0 1 5).2.transfer_from 1 0 2 3).2.balances
       = ((Psp20.new 5 1).approve 0 1 5).2.balances ∧
     (((Psp20.new 5 1).approve 0 1 5).2.transfer_from 1 0 2 3).2.total_supply
       = ((Psp20.new 5 1).approve 0 1 5).2.total_supply ∧
     (((Psp20.new 5 1).approve 0 1 5).2.transfer_from 1 0 2 3).2.events
       = ((Psp20.new 5 1).approve 0 1 5).2.events) :=
  ⟨by decide, by decide,
   transfer_from_consumes_allowance_on_failed_transfer
     ((Psp20.new 5 1).approve 0 1 5).2 1 0 2 3 (by decide) (by decide)⟩

/-- Claim C3: when the caller's allowance from `from` is strictly below
    `value`, `transfer_from` returns `false` and the whole state —
    balances, allowances, total supply and event log — is unchanged; no
    hypothesis about any balance is needed, so this check precedes the
    balance check. -/
theorem transfer_from_insufficient_allowance_noop
    (s : Psp20) (caller src dst : AccountId) (value : Nat)
    (ha : s.allowance src caller < value) :
    s.transfer_from caller src dst value = (false, s) := by
  have ha2 : s.allowance_of_or_zero src caller < value := ha
  simp only [Psp20.transfer_from]
  rw [if_pos ha2]

theorem transfer_from_insufficient_allowance_noop_witness :
    ((Psp20.new 100 1).approve 1 0 10).2.allowance 1 0 < 11 ∧
    ((Psp20.new 100 1).approve 1 0 10).2.transfer_from 0 1 2 11
      = (false, ((Psp20.new 100 1).approve 1 0 10).2) :=
  ⟨by decide,
   transfer_from_insufficient_allowance_noop
     ((Psp20.new 100 1).approve 1 0 10).2 0 1 2 11 (by decide)⟩

/-- Claim C4: on any reachable state the internal transfer primitive
    returns `false` with no mutation when the sender's balance is below
    `value`, and otherwise debits the sender, credits the receiver with
    its post-debit balance plus `value`, appends a
    `Transfer (some from) (some to) value` event and returns `true`;
    `transfer` delegates to it with `from = caller`. -/
theorem transfer_primitive_spec (s : Psp20) (hr : Reachable s)
    (caller src dst : AccountId) (value : Nat) :
    s.transfer_from_to src dst value =
      (if s.balance_of src < value then (false, s)
       else
        (true,
          { s with
            balances := (s.balances.insert src (s.balance_of src - value)).insert dst
              ((s.balances.insert src (s.balance_of src - value)).getZ dst + value)
            events := s.events ++ [Event.Transfer (some src) (some dst) value] })) ∧
    s.transfer caller dst value = s.transfer_from_to caller dst value := by
  refine ⟨?_, rfl⟩
  by_cases hlt : s.balance_of src < value
  · rw [if_pos hlt]
    exact transfer_from_to_of_lt s src dst value hlt
  · rw [if_neg hlt]
    exact (transfer_from_to_success s src dst value (reachable_inv s hr)
      (Nat.not_lt.mp hlt)).2

theorem transfer_primitive_spec_witness :
    Reachable (Psp20.new 100 0) ∧
    ((Psp20.new 100 0).transfer_from_to 0 1 10 =
      (if (Psp20.new 100 0).balance_of 0 < 10 then (false, Psp20.new 100 0)
       else
        (true,
          { Psp20.new 100 0 with
            balances := ((Psp20.new 100 0).balances.insert 0
                ((Psp20.new 100 0).balance_of 0 - 10)).insert 1
              (((Psp20.new 100 0).balances.insert 0
                ((Psp20.new 100 0).balance_of 0 - 10)).getZ 1 + 10)
            events := (Psp20.new 100 0).events
              ++ [Event.Transfer (some 0) (some 1) 10] })) ∧
     (Psp20.new 100 0).transfer 0 1 10 = (Psp20.new 100 0).transfer_from_to 0 1 10) :=
  ⟨Reachable.init 100 0 (by norm_num [U128]),
   transfer_primitive_spec (Psp20.new 100 0)
     (Reachable.init 100 0 (by norm_num [U128])) 0 0 1 10⟩

/-- Claim C5: `approve` unconditionally overwrites
    `allowances[(caller, spender)]` with `value` (a second approval for
    the same pair replaces the first, never adds), leaves every other
    allowance, all balances and the total supply untouched, appends an
    `Approval caller spender value` event, and returns `true` — with no
    precondition on the caller's balance or on `spender ≠ caller`. -/
theorem approve_overwrite_spec (s : Psp20) (caller spender : AccountId)
    (value v2 : Nat) (o sp : AccountId) (hne : (o, sp) ≠ (caller, spender)) :
    (s.approve caller spender value).1 = true ∧
    (s.approve caller spender value).2.allowance caller spender = value ∧
    (s.approve caller spender value).2.allowance o sp = s.allowance o sp ∧
    (s.approve caller spender value).2.balances = s.balances ∧
    (s.approve caller spender value).2.total_supply = s.total_supply ∧
    (s.approve caller spender value).2.events
      = s.events ++ [Event.Approval caller spender value] ∧
    ((s.approve caller spender value).2.approve caller spender v2).2.allowance
        caller spender = v2 := by
  refine ⟨rfl, ?_, ?_, rfl, rfl, rfl, ?_⟩
  · exact AMap.getZ_insert_self s.allowances (caller, spender) value
  · exact AMap.getZ_insert_ne s.allowances (caller, spender) (o, sp) value hne
  · exact AMap.getZ_insert_self
      (s.allowances.insert (caller, spender) value) (caller, spender) v2

theorem approve_overwrite_spec_witness :
    ((2 : AccountId), (3 : AccountId)) ≠ ((0 : AccountId), (1 : AccountId)) ∧
    (((Psp20.new 100 0).approve 0 1 10).1 = true ∧
     ((Psp20.new 100 0).approve 0 1 10).2.allowance 0 1 = 10 ∧
     ((Psp20.new 100 0).approve 0 1 10).2.allowance 2 3 = (Psp20.new 100 0).allowance 2 3 ∧
     ((Psp20.new 100 0).approve 0 1 10).2.balances = (Psp20.new 100 0).balances ∧
     ((Psp20.new 100 0).approve 0 1 10).2.total_supply = (Psp20.new 100 0).total_supply ∧
     ((Psp20.new 100 0).approve 0 1 10).2.events
       = (Psp20.new 100 0).events ++ [Event.Approval 0 1 10] ∧
     (((Psp20.new 100 0).approve 0 1 10).2.approve 0 1 5).2.allowance 0 1 = 5) :=
  ⟨by decide, approve_overwrite_spec (Psp20.new 100 0) 0 1 10 5 2 3 (by decide)⟩

/-- Claim C6: construction with `initial_supply` and `creator` yields a
    state whose total supply is `initial_supply`, whose balance table
    gives `initial_supply` to the creator and zero to every other
    account, whose allowance table is empty, and whose event log is
    exactly one `Transfer none (some creator) initial_supply` event. -/
theorem new_initial_state (initial_supply : Nat) (creator a : AccountId)
    (h : a ≠ creator) :
    (Psp20.new initial_supply creator).total_supply = initial_supply ∧
    (Psp20.new initial_supply creator).balance_of creator = initial_supply ∧
    (Psp20.new initial_supply creator).balance_of a = 0 ∧
    (Psp20.new initial_supply creator).allowances = [] ∧
    (Psp20.new initial_supply creator).events
      = [Event.Transfer none (some creator) initial_supply] := by
  refine ⟨rfl, ?_, ?_, rfl, rfl⟩
  · exact AMap.getZ_insert_self [] creator initial_supply
  · show (AMap.insert [] creator initial_supply).getZ a = 0
    rw [AMap.getZ_insert_ne [] creator a initial_supply h]
    rfl

theorem new_initial_state_witness :
    (1 : AccountId) ≠ (0 : AccountId) ∧
    ((Psp20.new 100 0).total_supply = 100 ∧
     (Psp20.new 100 0).balance_of 0 = 100 ∧
     (Psp20.new 100 0).balance_of 1 = 0 ∧
     (Psp20.new 100 0).allowances = [] ∧
     (Psp20.new 100 0).events = [Event.Transfer none (some 0) 100]) :=
  ⟨by decide, new_initial_state 100 0 1 (by decide)⟩

/-- Claim C7: no operation ever writes the `total_supply` field —
    `transfer`, `approve` and `transfer_from` all leave it unchanged,
    for any arguments and any outcome. -/
theorem total_supply_frame (s : Psp20) (caller spender src dst : AccountId)
    (value : Nat) :
    (s.transfer caller dst value).2.total_supply = s.total_supply ∧
    (s.approve caller spender value).2.total_supply = s.total_supply ∧
    (s.transfer_from caller src dst value).2.total_supply = s.total_supply := by
  refine ⟨transfer_from_to_total_supply s caller dst value, rfl, ?_⟩
  simp only [Psp20.transfer_from]
  by_cases ha : s.allowance_of_or_zero src caller < value
  · rw [if_pos ha]
  · rw [if_neg ha]
    exact transfer_from_to_total_supply _ src dst value

/-- Claim C8 counterexample: the receiver-side credit in
    `transfer_from_to` is the unchecked `u128` addition, so on a state
    holding two maximal balances it silently wraps — the written balance
    is not the arithmetic sum of the old balance and `value`, and the
    call still reports success instead of surfacing an overflow error. -/
theorem receiver_addition_wraps_cex :
    (wrapState.transfer_from_to 0 1 (U128 - 1)).1 = true ∧
    (wrapState.transfer_from_to 0 1 (U128 - 1)).2.balance_of 1 = U128 - 2 ∧
    (wrapState.transfer_from_to 0 1 (U128 - 1)).2.balance_of 1
      ≠ wrapState.balance_of 1 + (U128 - 1) := by
  refine ⟨rfl, ?_, ?_⟩ <;> decide

/-- Claim C8 as amended: the sender-side subtraction is guarded by the
    explicit balance check, and on every reachable state the conservation
    invariant bounds the receiver-side sum by the total supply, so the
    unchecked `transfer_from_to` coincides with the overflow-checked
    primitive the specification describes and never writes a wrapped
    value; on unreachable states the unchecked addition can wrap. -/
theorem transfer_from_to_checked_refinement (s : Psp20) (hr : Reachable s)
    (src dst : AccountId) (value : Nat) :
    s.transfer_from_to_checked src dst value
      = some (s.transfer_from_to src dst value) :=
  transfer_from_to_checked_eq s src dst value (reachable_inv s hr)

theorem transfer_from_to_checked_refinement_witness :
    Reachable (Psp20.new 100 0) ∧
    (Psp20.new 100 0).transfer_from_to_checked 0 1 10
      = some ((Psp20.new 100 0).transfer_from_to 0 1 10) :=
  ⟨Reachable.init 100 0 (by norm_num [U128]),
   transfer_from_to_checked_refinement (Psp20.new 100 0)
     (Reachable.init 100 0 (by norm_num [U128])) 0 1 10⟩

/-- Claim C9: on a reachable state, a self-transfer of any amount covered
    by the account's balance succeeds, leaves every balance unchanged,
    and still appends a `Transfer (some a) (some a) value` event. -/
theorem self_transfer_spec (s : Psp20) (a b : AccountId) (value : Nat)
    (hr : Reachable s) (hv : value ≤ s.balance_of a) :
    (s.transfer_from_to a a value).1 = true ∧
    (s.transfer_from_to a a value).2.balance_of b = s.balance_of b ∧
    (s.transfer_from_to a a value).2.events
      = s.events ++ [Event.Transfer (some a) (some a) value] := by
  obtain ⟨hle, heq⟩ := transfer_from_to_success s a a value (reachable_inv s hr) hv
  rw [heq]
  refine ⟨rfl, ?_, rfl⟩
  dsimp only [Psp20.balance_of, Psp20.balance_of_or_zero]
  by_cases hb : b = a
  · subst hb
    rw [AMap.getZ_insert_self, AMap.getZ_insert_self]
    simp only [Psp20.balance_of, Psp20.balance_of_or_zero] at hv
    omega
  · rw [AMap.getZ_insert_ne _ a b _ hb, AMap.getZ_insert_ne _ a b _ hb]

theorem self_transfer_spec_witness :
    Reachable (Psp20.new 100 0) ∧ 10 ≤ (Psp20.new 100 0).balance_of 0 ∧
    (((Psp20.new 100 0).transfer_from_to 0 0 10).1 = true ∧
     ((Psp20.new 100 0).transfer_from_to 0 0 10).2.balance_of 1
       = (Psp20.new 100 0).balance_of 1 ∧
     ((Psp20.new 100 0).transfer_from_to 0 0 10).2.events
       = (Psp20.new 100 0).events ++ [Event.Transfer (some 0) (some 0) 10]) :=
  ⟨Reachable.init 100 0 (by norm_num [U128]), by decide,
   self_transfer_spec (Psp20.new 100 0) 0 1 10
     (Reachable.init 100 0 (by norm_num [U128])) (by decide)⟩

/-- Claim C10: an owner gains no implicit right to spend their own
    balance through `transfer_from` — when `caller = from = a` and the
    self-allowance `allowances[(a, a)]` is below a positive `value`, the
    call returns `false` with the state completely unchanged. -/
theorem transfer_from_owner_requires_self_allowance
    (s : Psp20) (a dst : AccountId) (value : Nat)
    (_hpos : 0 < value) (ha : s.allowance a a < value) :
    s.transfer_from a a dst value = (false, s) := by
  have ha2 : s.allowance_of_or_zero a a < value := ha
  simp only [Psp20.transfer_from]
  rw [if_pos ha2]

theorem transfer_from_owner_requires_self_allowance_witness :
    0 < 5 ∧ (Psp20.new 100 0).allowance 0 0 < 5 ∧
    (Psp20.new 100 0).transfer_from 0 0 1 5 = (false, Psp20.new 100 0) :=
  ⟨by decide, by decide,
   transfer_from_owner_requires_self_allowance (Psp20.new 100 0) 0 1 5
     (by decide) (by decide)⟩
